import Mathlib

/-!
Shallow embedding of `src/torchrl/collectors/distributed/sync.py`: the
`DistributedSyncDataCollector` coordinator and the worker entry point
`_distributed_init_collection_node`, together with the parts of their
behaviour that the verified properties refer to.

Environment constructors, policies and tensor payloads are abstracted as
`Nat` tokens; tensordicts are modelled by their batch shape, their named
fields (name, per-field shape, payload) and their lock flag.  The simple
collectors (`SyncDataCollector` and friends) are external collaborators whose
code is not part of the source file; where their behaviour matters it is
modelled from the spec and flagged as such in the doc comments.
-/

namespace DistributedSync

/-- Error values for the exceptions raised in `sync.py`: the two
`RuntimeError`s of `DistributedSyncDataCollector.__init__` (indivisible frame
counts), the `RuntimeError` of `_distributed_init_collection_node`
(single-environment collector with more than one environment), the
`ImportError` of `_init_workers` (submitit missing) and the
`NotImplementedError` of the four unsupported operations. -/
inductive CollectorError where
  | cannotDispatchTotalFrames
  | cannotDispatchFramesPerBatch
  | singleEnvMultipleWorkers
  | submititNotFound
  | notImplementedError
  deriving DecidableEq, Repr

/-- Collector classes accepted for the remote nodes: `SyncDataCollector`
(string tag "single"), `MultiSyncDataCollector` ("sync"),
`MultiaSyncDataCollector` ("async"). -/
inductive CollectorClass where
  | syncDataCollector
  | multiSyncDataCollector
  | multiaSyncDataCollector
  deriving DecidableEq, Repr

/-- Python `issubclass(collector_class, SyncDataCollector)` on the three
collector classes: only `SyncDataCollector` itself is a subclass. -/
def CollectorClass.isSyncSubclass : CollectorClass → Bool
  | .syncDataCollector => true
  | _ => false

/-- Environment fan-out and validation at the top of
`_distributed_init_collection_node` (sync.py lines 66-73): collector classes
that are not `SyncDataCollector` subclasses replicate `env_make` into a list
of `num_workers` copies, while a `SyncDataCollector` subclass requires
`num_workers == 1` and raises `RuntimeError` otherwise.  Environment
constructors are abstracted as `Nat` tokens. -/
def nodeCollectorEnvs (collector_class : CollectorClass) (num_workers : Nat)
    (env_make : Nat) : Except CollectorError (List Nat) :=
  if !collector_class.isSyncSubclass then
    .ok (List.replicate num_workers env_make)
  else if num_workers ≠ 1 then
    .error CollectorError.singleEnvMultipleWorkers
  else
    .ok [env_make]

/-- Frame-count validation of `DistributedSyncDataCollector.__init__`
(sync.py lines 233-238 and 248-253), in source order: first
`total_frames_per_collector = total_frames // num_workers` is checked to
recover `total_frames` when multiplied back, then
`frames_per_batch % num_workers` is checked to be zero.  On success it
returns the derived pair `(total_frames_per_collector,
_frames_per_batch_corrected)`. -/
def initValidate (num_workers total_frames frames_per_batch : Nat) :
    Except CollectorError (Nat × Nat) :=
  let total_frames_per_collector := total_frames / num_workers
  if total_frames_per_collector * num_workers ≠ total_frames then
    .error CollectorError.cannotDispatchTotalFrames
  else if frames_per_batch % num_workers ≠ 0 then
    .error CollectorError.cannotDispatchFramesPerBatch
  else
    .ok (total_frames_per_collector, frames_per_batch / num_workers)

/-- One named tensor of a tensordict: field name, shape metadata and an
abstract payload token standing for the tensor's data. -/
structure Field where
  name : String
  shape : List Nat
  payload : Nat
  deriving DecidableEq, Repr

/-- Model of a tensordict: batch shape, named fields and the lock flag set by
`lock_()`. -/
structure TDModel where
  batchShape : List Nat
  fields : List Field
  locked : Bool
  deriving DecidableEq, Repr

/-- Python `data.numel()` on a tensordict: the number of elements of its
batch shape. -/
def TDModel.numel (td : TDModel) : Nat := td.batchShape.prod

/-- Layout of a tensordict: its batch shape together with its field set and
per-field shapes — everything except the payloads. -/
def TDModel.layout (td : TDModel) : List Nat × List (String × List Nat) :=
  (td.batchShape, td.fields.map (fun f => (f.name, f.shape)))

/-- Python `td.expand((n, *td.shape))` followed by `to_tensordict()`: a new
leading batch dimension of size `n`. -/
def TDModel.expandLead (td : TDModel) (n : Nat) : TDModel :=
  { td with batchShape := n :: td.batchShape }

/-- Python `td.unbind(0)`: the list of slices along the leading batch
dimension. -/
def TDModel.unbindLead (td : TDModel) : List TDModel :=
  match td.batchShape with
  | [] => []
  | n :: rest => List.replicate n { td with batchShape := rest }

/-- Python `td.lock_()`. -/
def TDModel.lock_ (td : TDModel) : TDModel := { td with locked := true }

/-- In-place write of incoming payloads into an existing field list, as an
`irecv` into a pre-allocated tensordict does: payloads are overwritten one by
one, names and shapes are left untouched. -/
def writePayloads : List Field → List Nat → List Field
  | [], _ => []
  | f :: fs, [] => f :: fs
  | f :: fs, p :: ps => { f with payload := p } :: writePayloads fs ps

/-- Python `td.irecv(src=rank)` receiving into a pre-allocated tensordict:
incoming payloads land in the existing tensors, so only payloads change. -/
def TDModel.irecvPayloads (td : TDModel) (incoming : List Nat) : TDModel :=
  { td with fields := writePayloads td.fields incoming }

/-- Model of `DistributedSyncDataCollector._make_container` (sync.py lines
289-317): run one throwaway rollout with `self.env_constructors[0]` and the
policy (the probe), expand the resulting tensordict along a new leading
dimension of size `num_workers` (the two branches of the source's
`if not issubclass(...)` are textually identical, which the embedded `if`
with equal arms mirrors), unbind the slices, and lock the buffer.  The probe
rollout itself is performed by the external `SyncDataCollector`; it is
abstracted as the function argument `probe` from the environment constructor
and policy tokens to the produced tensordict.  An empty constructor list
makes the Python subscript `env_constructors[0]` fail, hence `Option`. -/
def makeContainer (collector_class : CollectorClass) (probe : Nat → Nat → TDModel)
    (policy : Nat) (env_constructors : List Nat) (num_workers : Nat) :
    Option (TDModel × List TDModel) :=
  match env_constructors with
  | [] => none
  | env_constructor :: _ =>
    let d := probe env_constructor policy
    let out := if !collector_class.isSyncSubclass then d.expandLead num_workers
               else d.expandLead num_workers
    some (out.lock_, out.unbindLead)

/-- One gather round of `_iterator_dist` (sync.py lines 413-421) acting on
the unbound slices: the message of worker `i` is received into slice `i`;
slices with no message (a shorter message list) keep their contents. -/
def receiveRoundAux : List TDModel → List (List Nat) → List TDModel
  | [], _ => []
  | s :: ss, [] => s :: ss
  | s :: ss, m :: ms => s.irecvPayloads m :: receiveRoundAux ss ms

/-- Iterated gather rounds: each element of `msgss` is one round's list of
per-worker incoming payloads. -/
def receiveRounds (singles : List TDModel) : List (List (List Nat)) → List TDModel
  | [] => singles
  | m :: ms => receiveRounds (receiveRoundAux singles m) ms

/-- Yield sequence of `_iterator_dist` (sync.py lines 402-425): while the
running total is below `self.total_frames`, one clone of the output buffer is
yielded per round and the running total advances by `data.numel()`.  The
positivity guard on the numel is the termination condition of the loop: with
a zero-sized buffer the Python loop never terminates, and every property
below concerns positive batch sizes. -/
def iteratorDistYields (out : TDModel) (target total : Nat) : List TDModel :=
  if h : total < target ∧ 0 < out.numel then
    out :: iteratorDistYields out target (total + out.numel)
  else
    []
termination_by target - total
decreasing_by omega

/-- Run state of the coordinator across `_iterator_dist` rounds: the running
total, the round counter `j`, and the `_batches_since_weight_update` list
created at `__init__` line 242. -/
structure RunState where
  total_frames_collected : Nat
  rounds_done : Nat
  batches_since_weight_update : List Nat
  deriving DecidableEq, Repr

/-- State at construction: zero frames collected, round counter at the start
of the loop, and `_batches_since_weight_update = [0 for _ in
range(self.num_workers)]` (sync.py line 242). -/
def initRunState (num_workers : Nat) : RunState :=
  { total_frames_collected := 0
    rounds_done := 0
    batches_since_weight_update := List.replicate num_workers 0 }

/-- One round of `_iterator_dist` as a state update: the running total
advances by the batch numel and the round counter by one.  The loop body
(sync.py lines 402-425) never references `_batches_since_weight_update`, so
that field is carried through unchanged. -/
def iterRound (batchNumel : Nat) (s : RunState) : RunState :=
  { s with
    total_frames_collected := s.total_frames_collected + batchNumel
    rounds_done := s.rounds_done + 1 }

/-- Iterating `n` rounds of the coordinator loop from a given state. -/
def runRounds (batchNumel : Nat) (s : RunState) : Nat → RunState
  | 0 => s
  | n + 1 => runRounds batchNumel (iterRound batchNumel s) n

/-- Modelled from the spec: the staleness of a worker after `r` completed
rounds, that is the number of rounds completed since the last round `k` with
`k % update_interval == 0` (parameter broadcasts happen exactly at those
rounds, the first round counting as round 0). -/
def specRoundsSinceLastBroadcast (update_interval r : Nat) : Nat :=
  (r - 1) % update_interval

/-- Events of the coordinator side of one collection run, in program order:
a non-blocking weight send to a worker rank, the posting of a non-blocking
batch receive from a worker rank, and the yield of the cloned buffer. -/
inductive CoordEvent where
  | sendWeights (round rank : Nat)
  | postRecv (round rank : Nat)
  | yieldBatch (round : Nat)
  deriving DecidableEq, Repr

/-- One round of `_iterator_dist` as an event list (sync.py lines 407-425):
when `j % update_interval == 0` the policy weights are sent to every rank
`i + 1` (one `isend` per worker, regardless of whether the weight mapping is
empty), then one batch `irecv` is posted per rank into that rank's slice, the
trackers are waited on, and the cloned buffer is yielded. -/
def coordRound (num_workers update_interval j : Nat) : List CoordEvent :=
  (if j % update_interval = 0 then
    (List.range num_workers).map (fun i => CoordEvent.sendWeights j (i + 1))
  else []) ++
  ((List.range num_workers).map (fun i => CoordEvent.postRecv j (i + 1)) ++
    [CoordEvent.yieldBatch j])

/-- Event trace of the `_iterator_dist` while loop: round `j` runs while the
running total is below the target, and the total advances by the buffer numel
each round.  As in `iteratorDistYields`, the positivity of the buffer numel
is the termination condition. -/
def coordLoop (num_workers update_interval batchNumel target total j : Nat) :
    List CoordEvent :=
  if h : total < target ∧ 0 < batchNumel then
    coordRound num_workers update_interval j ++
      coordLoop num_workers update_interval batchNumel target (total + batchNumel) (j + 1)
  else
    []
termination_by target - total
decreasing_by omega

/-- Full coordinator event trace: the source initialises `total_frames = 0`
and `j = -1` with `j += 1` at the top of each iteration, which is the same as
a round counter starting at 0. -/
def coordEvents (num_workers update_interval batchNumel target : Nat) :
    List CoordEvent :=
  coordLoop num_workers update_interval batchNumel target 0 0

/-- Events of one worker process, in program order: posting a non-blocking
weight receive, the local collector producing a batch, and the non-blocking
batch send to rank 0. -/
inductive WorkerEvent where
  | recvWeights (round : Nat)
  | produceBatch (round : Nat)
  | sendBatch (round : Nat)
  deriving DecidableEq, Repr

/-- Rounds of the worker loop of `_distributed_init_collection_node`
(sync.py lines 113-123), starting at batch index `i` with
`frames = i * frames_per_batch` already accumulated: the collector produces
batch `i` (the `for` statement), the batch is sent to rank 0, `frames`
advances by `data.numel()`, and when `frames < total_frames` and
`(i + 1) % update_interval == 0` and the weight mapping is non-empty another
weight receive is posted before the next batch is produced.  The bound on
the number of batches is modelled from the spec: the local collector is a
lazy sequence bounded by the local frame budget, producing
`frames_per_batch`-sized batches until `total_frames` is reached.  The
positivity of `frames_per_batch` is the termination condition. -/
def workerRounds (update_interval frames_per_batch total_frames : Nat)
    (nonempty : Bool) (i : Nat) : List WorkerEvent :=
  if h : i * frames_per_batch < total_frames ∧ 0 < frames_per_batch then
    WorkerEvent.produceBatch i :: WorkerEvent.sendBatch i ::
      ((if (i + 1) * frames_per_batch < total_frames ∧
           (i + 1) % update_interval = 0 ∧ nonempty = true then
          [WorkerEvent.recvWeights (i + 1)]
        else []) ++
        workerRounds update_interval frames_per_batch total_frames nonempty (i + 1))
  else
    []
termination_by total_frames - i * frames_per_batch
decreasing_by simp only [Nat.succ_mul]; omega

/-- Full worker event trace: `policy_weights.irecv(0)` is posted once before
the loop (sync.py line 112) — unconditionally, even for an empty weight
mapping — and then the rounds run. -/
def workerEvents (update_interval frames_per_batch total_frames : Nat)
    (nonempty : Bool) : List WorkerEvent :=
  WorkerEvent.recvWeights 0 ::
    workerRounds update_interval frames_per_batch total_frames nonempty 0

/-- Closed form of one worker round when the local budget is `R` batches:
produce and send batch `k`, then post the weight receive for round `k + 1`
exactly when another batch is coming, the next round index is a broadcast
round and the weight mapping is non-empty. -/
def workerRoundBlock (update_interval R : Nat) (nonempty : Bool) (k : Nat) :
    List WorkerEvent :=
  WorkerEvent.produceBatch k :: WorkerEvent.sendBatch k ::
    (if k + 1 < R ∧ (k + 1) % update_interval = 0 ∧ nonempty = true then
      [WorkerEvent.recvWeights (k + 1)]
    else [])

/-- Boolean order predicate on traces: some occurrence of `e` lies strictly
before some occurrence of `f`. -/
def occursBefore {α : Type} [DecidableEq α] (e f : α) : List α → Bool
  | [] => false
  | x :: xs => (decide (x = e) && decide (f ∈ xs)) || occursBefore e f xs

/-- Labels for the externally visible effects of
`DistributedSyncDataCollector.__init__` and its helpers. -/
inductive ConstructionStep where
  | validateFrameCounts
  | setMasterAddr
  | launchWorkers
  | rendezvous
  | shapeProbe
  | allocateOutputBuffer
  | lockOutputBuffer
  deriving DecidableEq, Repr

/-- Effect order of `_init_workers` (sync.py lines 368-397): publish the
master address and port, launch one job per worker, then join the group as
rank 0 via `_init_master_dist`. -/
def initWorkersSteps : List ConstructionStep :=
  [ConstructionStep.setMasterAddr, ConstructionStep.launchWorkers,
    ConstructionStep.rendezvous]

/-- Effect order of `_make_container` (sync.py lines 289-317): run the
throwaway probe rollout, allocate the expanded output buffer, lock it. -/
def makeContainerSteps : List ConstructionStep :=
  [ConstructionStep.shapeProbe, ConstructionStep.allocateOutputBuffer,
    ConstructionStep.lockOutputBuffer]

/-- Effect order of `__init__` (sync.py lines 195-271): the frame-count
validations run first, then `self._init_workers()` (line 270), then
`self._make_container()` (line 271). -/
def constructionSteps : List ConstructionStep :=
  ConstructionStep.validateFrameCounts :: (initWorkersSteps ++ makeContainerSteps)

/-- Launcher strategies of `DistributedSyncDataCollector`. -/
inductive Launcher where
  | submitit
  | mp
  deriving DecidableEq, Repr

/-- Outcome of `_init_workers` as far as worker launching goes: the raised
error, if any, and the jobs that had been launched when it returned or
raised. -/
structure InitWorkersResult where
  error : Option CollectorError
  jobs : List Nat
  deriving DecidableEq, Repr

/-- Model of `_init_workers` (sync.py lines 368-397): `self.jobs` starts
empty; with the submitit launcher and the library missing, `ImportError` is
raised before the launch loop runs, so the job list is still empty at that
point; otherwise one job per worker is launched. -/
def initWorkersRun (launcher : Launcher) (has_submitit : Bool)
    (num_workers : Nat) : InitWorkersResult :=
  let jobs : List Nat := []
  if launcher = Launcher.submitit ∧ has_submitit = false then
    { error := some CollectorError.submititNotFound, jobs := jobs }
  else
    { error := none, jobs := jobs ++ List.range num_workers }

/-- Python `DistributedSyncDataCollector.update_policy_weights_` (sync.py
lines 427-428): `raise NotImplementedError` for every argument. -/
def update_policy_weights_ (worker_rank : Option Nat) :
    Except CollectorError Unit :=
  .error CollectorError.notImplementedError

/-- Python `DistributedSyncDataCollector.set_seed` (sync.py lines 430-431). -/
def set_seed (seed : Nat) (static_seed : Bool) : Except CollectorError Nat :=
  .error CollectorError.notImplementedError

/-- Python `DistributedSyncDataCollector.state_dict` (sync.py lines
433-434). -/
def state_dict (coordinator : Unit) :
    Except CollectorError (List (String × Nat)) :=
  .error CollectorError.notImplementedError

/-- Python `DistributedSyncDataCollector.load_state_dict` (sync.py lines
436-437). -/
def load_state_dict (sd : List (String × Nat)) : Except CollectorError Unit :=
  .error CollectorError.notImplementedError

/-- Externally observable handles held by a constructed coordinator: the
`is_alive()` status of each launcher handle in `self.jobs`, whether the
process group is still initialised, and whether the output buffer is still
allocated. -/
structure CoordinatorHandles where
  jobs_alive : List Bool
  group_active : Bool
  buffer_allocated : Bool
  deriving DecidableEq, Repr

/-- Python `DistributedSyncDataCollector.shutdown` (sync.py lines 439-440):
the body is `pass`, so the call returns normally and changes nothing — no
worker is signalled or waited on, the process group stays initialised and
the buffer stays allocated. -/
def shutdown (s : CoordinatorHandles) : CoordinatorHandles := s

/-! General lemmas about `occursBefore` and `List.flatMap`. -/

theorem occursBefore_cons_self {α : Type} [DecidableEq α] (e f : α) (xs : List α)
    (h : f ∈ xs) : occursBefore e f (e :: xs) = true := by
  simp [occursBefore, h]

theorem occursBefore_cons_tail {α : Type} [DecidableEq α] (e f x : α) (xs : List α)
    (h : occursBefore e f xs = true) : occursBefore e f (x :: xs) = true := by
  simp [occursBefore, h]

theorem occursBefore_append_right {α : Type} [DecidableEq α] (e f : α)
    (l₁ l₂ : List α) (h : occursBefore e f l₂ = true) :
    occursBefore e f (l₁ ++ l₂) = true := by
  induction l₁ with
  | nil => simpa using h
  | cons x xs ih => exact occursBefore_cons_tail e f x _ ih

theorem occursBefore_append_left {α : Type} [DecidableEq α] (e f : α)
    (l₁ l₂ : List α) :
    occursBefore e f l₁ = true → occursBefore e f (l₁ ++ l₂) = true := by
  induction l₁ with
  | nil => intro h; simp [occursBefore] at h
  | cons x xs ih =>
      intro h
      simp only [occursBefore, Bool.or_eq_true, Bool.and_eq_true,
        decide_eq_true_eq, List.cons_append] at h ⊢
      rcases h with ⟨hx, hf⟩ | h
      · exact Or.inl ⟨hx, List.mem_append_left _ hf⟩
      · exact Or.inr (ih h)

theorem occursBefore_of_mem_mem {α : Type} [DecidableEq α] (e f : α)
    (l₁ l₂ : List α) (hf : f ∈ l₂) :
    e ∈ l₁ → occursBefore e f (l₁ ++ l₂) = true := by
  induction l₁ with
  | nil => intro he; exact absurd he (List.not_mem_nil e)
  | cons x xs ih =>
      intro he
      rcases List.mem_cons.mp he with rfl | hxs
      · simp only [List.cons_append, occursBefore, Bool.or_eq_true,
          Bool.and_eq_true, decide_eq_true_eq]
        exact Or.inl ⟨by trivial, List.mem_append_right _ hf⟩
      · exact occursBefore_cons_tail e f x _ (ih hxs)

theorem count_range_of_lt (n m : Nat) (h : n < m) : (List.range m).count n = 1 := by
  induction m with
  | zero => omega
  | succ k ih =>
      rw [List.range_succ, List.count_append]
      rcases Nat.lt_succ_iff_lt_or_eq.mp h with h' | rfl
      · rw [ih h']
        simp [List.count_singleton, Nat.ne_of_lt h']
      · have h0 : (List.range n).count n = 0 :=
          List.count_eq_zero_of_not_mem (by simp)
        rw [h0]
        simp [List.count_singleton]

theorem flatMap_range_split {β : Type} (g : Nat → List β) :
    ∀ {R n : Nat}, n < R →
      ∃ B, (List.range R).flatMap g = (List.range n).flatMap g ++ (g n ++ B) := by
  intro R
  induction R with
  | zero => intro n h; omega
  | succ k ih =>
      intro n h
      rw [List.range_succ, List.flatMap_append]
      rcases Nat.lt_succ_iff_lt_or_eq.mp h with h' | rfl
      · obtain ⟨B, hB⟩ := ih h'
        refine ⟨B ++ [k].flatMap g, ?_⟩
        rw [hB]
        simp [List.append_assoc]
      · exact ⟨[], by simp⟩

theorem count_flatMap_single {β : Type} [DecidableEq β] (g : Nat → List β) (e : β)
    (n : Nat) :
    ∀ R, n < R → (∀ j, j ≠ n → e ∉ g j) →
      ((List.range R).flatMap g).count e = (g n).count e := by
  intro R
  induction R with
  | zero => omega
  | succ k ih =>
      intro hn hother
      rw [List.range_succ, List.flatMap_append, List.count_append]
      rcases Nat.lt_succ_iff_lt_or_eq.mp hn with h' | rfl
      · rw [ih h' hother]
        have hk : e ∉ [k].flatMap g := by
          simp only [List.flatMap_cons, List.flatMap_nil, List.append_nil]
          exact hother k (by omega)
        rw [List.count_eq_zero_of_not_mem hk]
        omega
      · have h0 : e ∉ (List.range n).flatMap g := by
          intro hmem
          obtain ⟨j, hj, hej⟩ := List.mem_flatMap.mp hmem
          exact hother j (by simp at hj; omega) hej
        rw [List.count_eq_zero_of_not_mem h0, Nat.zero_add]
        simp [List.flatMap_cons]

theorem mem_flatMap_range_of_mem {β : Type} (g : Nat → List β) (e : β)
    (n R : Nat) (hn : n < R) (he : e ∈ g n) :
    e ∈ (List.range R).flatMap g :=
  List.mem_flatMap.mpr ⟨n, List.mem_range.mpr hn, he⟩

theorem flatMap_map_succ {β : Type} (g : Nat → List β) (l : List Nat) :
    (l.map Nat.succ).flatMap g = l.flatMap (fun t => g (t + 1)) := by
  induction l with
  | nil => simp
  | cons x xs ih => simp [List.flatMap_cons, ih, Nat.succ_eq_add_one]

/-! Closed forms of the three while-style loops. -/

theorem coordLoop_closed (num_workers update_interval b : Nat) (hb : 0 < b) :
    ∀ (m total j : Nat),
      coordLoop num_workers update_interval b (total + m * b) total j
        = (List.range m).flatMap (fun t => coordRound num_workers update_interval (j + t)) := by
  intro m
  induction m with
  | zero =>
      intro total j
      unfold coordLoop
      simp
  | succ k ih =>
      intro total j
      have hpos : total < total + (k + 1) * b := by
        have hmul : 0 < (k + 1) * b := Nat.mul_pos (Nat.succ_pos k) hb
        omega
      unfold coordLoop
      rw [dif_pos ⟨hpos, hb⟩]
      have harr : total + (k + 1) * b = (total + b) + k * b := by ring
      rw [harr, ih (total + b) (j + 1)]
      rw [List.range_succ_eq_map, List.flatMap_cons, flatMap_map_succ]
      have hfun : (fun t => coordRound num_workers update_interval (j + (t + 1)))
          = (fun t => coordRound num_workers update_interval (j + 1 + t)) := by
        funext t
        congr 1
        omega
      rw [hfun]
      simp

theorem coordEvents_closed (num_workers update_interval b R target : Nat)
    (hb : 0 < b) (ht : target = R * b) :
    coordEvents num_workers update_interval b target
      = (List.range R).flatMap (coordRound num_workers update_interval) := by
  have h := coordLoop_closed num_workers update_interval b hb R 0 0
  rw [Nat.zero_add] at h
  have hfun : (fun t => coordRound num_workers update_interval (0 + t))
      = coordRound num_workers update_interval := by
    funext t
    rw [Nat.zero_add]
  rw [hfun] at h
  rw [coordEvents, ht, h]

theorem workerRounds_closed (update_interval fpb R : Nat) (ne : Bool)
    (hfpb : 0 < fpb) :
    ∀ (m i : Nat), i + m = R →
      workerRounds update_interval fpb (R * fpb) ne i
        = (List.range m).flatMap (fun t => workerRoundBlock update_interval R ne (i + t)) := by
  intro m
  induction m with
  | zero =>
      intro i hi
      have hcond : ¬ (i * fpb < R * fpb ∧ 0 < fpb) := by
        rintro ⟨hlt, -⟩
        have := (Nat.mul_lt_mul_right hfpb).mp hlt
        omega
      unfold workerRounds
      rw [dif_neg hcond]
      simp
  | succ k ih =>
      intro i hi
      have hiR : i < R := by omega
      have hlt : i * fpb < R * fpb := (Nat.mul_lt_mul_right hfpb).mpr hiR
      unfold workerRounds
      rw [dif_pos ⟨hlt, hfpb⟩]
      rw [ih (i + 1) (by omega)]
      rw [List.range_succ_eq_map, List.flatMap_cons, flatMap_map_succ]
      have hfun : (fun t => workerRoundBlock update_interval R ne (i + (t + 1)))
          = (fun t => workerRoundBlock update_interval R ne (i + 1 + t)) := by
        funext t
        congr 1
        omega
      rw [hfun]
      simp only [Nat.mul_lt_mul_right hfpb, Nat.add_zero, workerRoundBlock,
        List.cons_append, List.append_assoc]

theorem workerEvents_closed (update_interval fpb R total : Nat) (ne : Bool)
    (hfpb : 0 < fpb) (ht : total = R * fpb) :
    workerEvents update_interval fpb total ne
      = WorkerEvent.recvWeights 0 ::
          (List.range R).flatMap (workerRoundBlock update_interval R ne) := by
  have h := workerRounds_closed update_interval fpb R ne hfpb R 0 (by omega)
  have hfun : (fun t => workerRoundBlock update_interval R ne (0 + t))
      = workerRoundBlock update_interval R ne := by
    funext t
    rw [Nat.zero_add]
  rw [hfun] at h
  rw [workerEvents, ht, h]

theorem iteratorDistYields_go (out : TDModel) (h : 0 < out.numel) :
    ∀ (m total : Nat),
      iteratorDistYields out (total + m * out.numel) total = List.replicate m out := by
  intro m
  induction m with
  | zero =>
      intro total
      unfold iteratorDistYields
      simp
  | succ k ih =>
      intro total
      have hpos : total < total + (k + 1) * out.numel := by
        have hmul : 0 < (k + 1) * out.numel := Nat.mul_pos (Nat.succ_pos k) h
        omega
      unfold iteratorDistYields
      rw [dif_pos ⟨hpos, h⟩]
      have harr : total + (k + 1) * out.numel = (total + out.numel) + k * out.numel := by
        ring
      rw [harr, ih (total + out.numel)]
      simp [List.replicate_succ]

theorem iteratorDistYields_closed (out : TDModel) (target n : Nat)
    (h : 0 < out.numel) (ht : target = n * out.numel) :
    iteratorDistYields out target 0 = List.replicate n out := by
  have hgo := iteratorDistYields_go out h n 0
  rw [Nat.zero_add] at hgo
  rw [ht]
  exact hgo

/-! Lemmas about the run state, the buffer layout and the validations. -/

theorem runRounds_batches (b : Nat) :
    ∀ (n : Nat) (s : RunState),
      (runRounds b s n).batches_since_weight_update = s.batches_since_weight_update := by
  intro n
  induction n with
  | zero => intro s; rfl
  | succ k ih =>
      intro s
      rw [runRounds, ih]
      rfl

theorem writePayloads_shapes : ∀ (fs : List Field) (ps : List Nat),
    (writePayloads fs ps).map (fun f => (f.name, f.shape))
      = fs.map (fun f => (f.name, f.shape)) := by
  intro fs
  induction fs with
  | nil => intro ps; cases ps <;> rfl
  | cons f ft ih =>
      intro ps
      cases ps with
      | nil => rfl
      | cons p pt => simp [writePayloads, ih]

theorem irecvPayloads_layout (td : TDModel) (m : List Nat) :
    (td.irecvPayloads m).layout = td.layout := by
  simp [TDModel.irecvPayloads, TDModel.layout, writePayloads_shapes]

theorem receiveRoundAux_layouts : ∀ (ss : List TDModel) (ms : List (List Nat)),
    (receiveRoundAux ss ms).map TDModel.layout = ss.map TDModel.layout := by
  intro ss
  induction ss with
  | nil => intro ms; cases ms <;> rfl
  | cons s st ih =>
      intro ms
      cases ms with
      | nil => rfl
      | cons m mt => simp [receiveRoundAux, ih, irecvPayloads_layout]

theorem receiveRounds_layouts (msgss : List (List (List Nat))) :
    ∀ (ss : List TDModel),
      (receiveRounds ss msgss).map TDModel.layout = ss.map TDModel.layout := by
  induction msgss with
  | nil => intro ss; rfl
  | cons m mt ih =>
      intro ss
      rw [receiveRounds, ih, receiveRoundAux_layouts]

theorem initValidate_eq_ok (nw tf fpb : Nat)
    (h1 : nw ∣ tf) (h2 : nw ∣ fpb) :
    initValidate nw tf fpb = .ok (tf / nw, fpb / nw) := by
  have hA : ¬ (tf / nw * nw ≠ tf) := by simp [Nat.div_mul_cancel h1]
  have hB : ¬ (fpb % nw ≠ 0) := by simp [Nat.mod_eq_zero_of_dvd h2]
  simp only [initValidate]
  rw [if_neg hA, if_neg hB]

theorem initValidate_error_total (nw tf fpb : Nat) (h : ¬ nw ∣ tf) :
    initValidate nw tf fpb = .error CollectorError.cannotDispatchTotalFrames := by
  have hA : tf / nw * nw ≠ tf := by
    intro he
    exact h ⟨tf / nw, by rw [Nat.mul_comm]; exact he.symm⟩
  simp only [initValidate]
  rw [if_pos hA]

theorem initValidate_error_fpb (nw tf fpb : Nat) (h1 : nw ∣ tf)
    (h2 : ¬ nw ∣ fpb) :
    initValidate nw tf fpb = .error CollectorError.cannotDispatchFramesPerBatch := by
  have hA : ¬ (tf / nw * nw ≠ tf) := by simp [Nat.div_mul_cancel h1]
  have hB : fpb % nw ≠ 0 := fun he => h2 (Nat.dvd_of_mod_eq_zero he)
  simp only [initValidate]
  rw [if_neg hA, if_pos hB]

/-! Inversion and membership lemmas for the event traces. -/

theorem sendWeights_mem_coordRound {num_workers update_interval j n rank : Nat}
    (h : CoordEvent.sendWeights n rank ∈ coordRound num_workers update_interval j) :
    j = n ∧ n % update_interval = 0 ∧ 1 ≤ rank ∧ rank ≤ num_workers := by
  simp only [coordRound, List.mem_append, List.mem_singleton] at h
  rcases h with h | h | h
  · by_cases hc : j % update_interval = 0
    · rw [if_pos hc] at h
      obtain ⟨i, hi, heq⟩ := List.mem_map.mp h
      injection heq with hj hr
      subst hj
      subst hr
      have hilt : i < num_workers := List.mem_range.mp hi
      exact ⟨rfl, hc, by omega, by omega⟩
    · rw [if_neg hc] at h
      exact absurd h (List.not_mem_nil _)
  · obtain ⟨i, -, heq⟩ := List.mem_map.mp h
    simp at heq
  · simp at h

theorem recvWeights_mem_block {update_interval R k n : Nat} {ne : Bool}
    (h : WorkerEvent.recvWeights n ∈ workerRoundBlock update_interval R ne k) :
    n = k + 1 ∧ n < R ∧ n % update_interval = 0 ∧ ne = true := by
  simp only [workerRoundBlock, List.mem_cons] at h
  rcases h with h | h | h
  · simp at h
  · simp at h
  · by_cases hc : k + 1 < R ∧ (k + 1) % update_interval = 0 ∧ ne = true
    · rw [if_pos hc] at h
      rw [List.mem_singleton] at h
      injection h with hk
      subst hk
      exact ⟨rfl, hc.1, hc.2.1, hc.2.2⟩
    · rw [if_neg hc] at h
      exact absurd h (List.not_mem_nil _)

theorem produceBatch_mem_block (update_interval R k : Nat) (ne : Bool) :
    WorkerEvent.produceBatch k ∈ workerRoundBlock update_interval R ne k :=
  List.mem_cons_self _ _

theorem recvWeights_mem_block_of (update_interval R k : Nat) (ne : Bool)
    (h1 : k + 1 < R) (h2 : (k + 1) % update_interval = 0) (hne : ne = true) :
    WorkerEvent.recvWeights (k + 1) ∈ workerRoundBlock update_interval R ne k := by
  simp only [workerRoundBlock]
  rw [if_pos ⟨h1, h2, hne⟩]
  simp

/-! Claim theorems. -/

/-- C2: construction raises a configuration error when `total_frames` is not
evenly divisible by `num_workers`, raises a configuration error when
`frames_per_batch` is not evenly divisible by `num_workers`, and raises
neither when both divisibility conditions hold (the validation succeeds with
the derived per-worker quantities). -/
theorem C2_construction_divisibility
    (num_workers total_frames frames_per_batch : Nat)
    (_hnw : 0 < num_workers) :
    (¬ num_workers ∣ total_frames →
        ∃ e, initValidate num_workers total_frames frames_per_batch = .error e)
      ∧ (¬ num_workers ∣ frames_per_batch →
        ∃ e, initValidate num_workers total_frames frames_per_batch = .error e)
      ∧ (num_workers ∣ total_frames → num_workers ∣ frames_per_batch →
        initValidate num_workers total_frames frames_per_batch
          = .ok (total_frames / num_workers, frames_per_batch / num_workers)) := by
  refine ⟨fun h => ⟨_, initValidate_error_total _ _ _ h⟩, fun h => ?_,
    fun h1 h2 => initValidate_eq_ok _ _ _ h1 h2⟩
  by_cases h1 : num_workers ∣ total_frames
  · exact ⟨_, initValidate_error_fpb _ _ _ h1 h⟩
  · exact ⟨_, initValidate_error_total _ _ _ h1⟩

/-- C2 witness: `num_workers = 4`, `total_frames = 100`,
`frames_per_batch = 15` — the spec's own example of an indivisible
`frames_per_batch`. -/
theorem C2_construction_divisibility_witness :
    0 < 4
      ∧ ((¬ (4 : Nat) ∣ 100 → ∃ e, initValidate 4 100 15 = .error e)
        ∧ (¬ (4 : Nat) ∣ 15 → ∃ e, initValidate 4 100 15 = .error e)
        ∧ ((4 : Nat) ∣ 100 → (4 : Nat) ∣ 15 →
            initValidate 4 100 15 = .ok (100 / 4, 15 / 4))) :=
  ⟨by decide, C2_construction_divisibility 4 100 15 (by decide)⟩

/-- C4: `update_policy_weights_`, `set_seed`, `state_dict` and
`load_state_dict` raise `NotImplementedError` for every argument value; none
of them ever returns normally. -/
theorem C4_unsupported_operations :
    (∀ worker_rank, update_policy_weights_ worker_rank
        = .error CollectorError.notImplementedError)
      ∧ (∀ seed st, set_seed seed st = .error CollectorError.notImplementedError)
      ∧ (∀ c, state_dict c = .error CollectorError.notImplementedError)
      ∧ (∀ sd, load_state_dict sd = .error CollectorError.notImplementedError) :=
  ⟨fun _ => rfl, fun _ _ => rfl, fun _ => rfl, fun _ => rfl⟩

/-- C5: `shutdown` has body `pass`.  Calling it twice raises no error and is
the identity on the coordinator's handles, so a coordinator whose worker
jobs are alive still has them alive — and the group and buffer still held —
after the second call, contradicting the spec's shutdown contract. -/
theorem C5_shutdown_is_noop :
    (∀ s, shutdown (shutdown s) = s)
      ∧ (shutdown (shutdown
          { jobs_alive := [true, true], group_active := true,
            buffer_allocated := true })).jobs_alive = [true, true]
      ∧ (shutdown (shutdown
          { jobs_alive := [true, true], group_active := true,
            buffer_allocated := true })).group_active = true :=
  ⟨fun _ => rfl, rfl, rfl⟩

/-- C6: requesting the single-environment collector class with
`num_workers_per_collector > 1` fails the worker-node validation (executed
when the workers are started during construction) with the configuration
error, and with exactly one sub-environment this error is not raised. -/
theorem C6_single_env_strategy (n env_make : Nat) (h : 1 < n) :
    nodeCollectorEnvs CollectorClass.syncDataCollector n env_make
        = .error CollectorError.singleEnvMultipleWorkers
      ∧ nodeCollectorEnvs CollectorClass.syncDataCollector 1 env_make
        = .ok [env_make] := by
  constructor
  · have hn : n ≠ 1 := by omega
    simp [nodeCollectorEnvs, CollectorClass.isSyncSubclass, hn]
  · rfl

/-- C6 witness: the spec's example, sub-environment count 2. -/
theorem C6_single_env_strategy_witness :
    1 < 2
      ∧ (nodeCollectorEnvs CollectorClass.syncDataCollector 2 7
          = .error CollectorError.singleEnvMultipleWorkers
        ∧ nodeCollectorEnvs CollectorClass.syncDataCollector 1 7 = .ok [7]) :=
  ⟨by decide, C6_single_env_strategy 2 7 (by decide)⟩

/-- C7 counterexample: in the construction sequence of `__init__` the shape
probe does NOT precede the worker launch — `_init_workers()` (line 270) runs
before `_make_container()` (line 271), so no occurrence of the shape-probe
step lies before the launch step. -/
theorem C7_probe_before_launch_counterexample :
    occursBefore ConstructionStep.shapeProbe ConstructionStep.launchWorkers
        constructionSteps = false
      ∧ ConstructionStep.shapeProbe ∈ constructionSteps
      ∧ ConstructionStep.launchWorkers ∈ constructionSteps := by decide

/-- C7 (amended): during construction the workers are launched and the group
rendezvous performed first (inside `_init_workers`), and only afterwards is
the output buffer shape determined by the throwaway local rollout and the
buffer allocated and locked (inside `_make_container`). -/
theorem C7_launch_before_probe :
    occursBefore ConstructionStep.launchWorkers ConstructionStep.shapeProbe
        constructionSteps = true
      ∧ occursBefore ConstructionStep.rendezvous ConstructionStep.shapeProbe
        constructionSteps = true
      ∧ occursBefore ConstructionStep.shapeProbe
        ConstructionStep.allocateOutputBuffer constructionSteps = true := by
  decide

/-- C8: with the submitit launcher requested and the library missing,
`_init_workers` raises the unavailable-dependency error before its launch
loop runs, so the job list is still empty — no partially launched worker
pool is left behind. -/
theorem C8_submitit_missing (num_workers : Nat) :
    initWorkersRun Launcher.submitit false num_workers
      = { error := some CollectorError.submititNotFound, jobs := [] } := rfl

/-- C9 counterexample: with one worker and `update_interval = 2`, after two
completed rounds the worker's staleness (rounds since the round-0 broadcast)
is 1, but the coordinator's `_batches_since_weight_update` entry is still 0 —
the iteration loop never updates the list. -/
theorem C9_staleness_counterexample :
    (runRounds 4 (initRunState 1) 2).batches_since_weight_update = [0]
      ∧ specRoundsSinceLastBroadcast 2 2 = 1
      ∧ (runRounds 4 (initRunState 1) 2).batches_since_weight_update
          ≠ [specRoundsSinceLastBroadcast 2 2] := by decide

/-- C9 (amended): the coordinator creates the per-worker counter list with
one zero entry per worker at construction and the list persists for the
lifetime of the run, but the synchronous iteration loop never updates it:
after any number of rounds every entry is still 0. -/
theorem C9_staleness_list_untouched (num_workers batchNumel rounds : Nat) :
    (runRounds batchNumel (initRunState num_workers) rounds).batches_since_weight_update
        = List.replicate num_workers 0
      ∧ (runRounds batchNumel (initRunState num_workers) rounds).batches_since_weight_update.length
        = num_workers := by
  rw [runRounds_batches]
  exact ⟨rfl, List.length_replicate _ _⟩

/-- C10: the output buffer is computed from `env_constructors[0]` and the
policy alone (changing the other constructors changes nothing), carries a new
leading dimension of size `num_workers` over the probe rollout's shape, is
locked, is unbound into one slice per worker, and its per-slice layout
(batch shape, field set, per-field shapes) is invariant under any sequence of
gather rounds writing worker payloads into the rank-indexed slices. -/
theorem C10_buffer_layout_invariant (collector_class : CollectorClass)
    (probe : Nat → Nat → TDModel) (policy e0 : Nat) (rest rest' : List Nat)
    (num_workers : Nat) (msgss : List (List (List Nat))) :
    makeContainer collector_class probe policy (e0 :: rest) num_workers
        = makeContainer collector_class probe policy (e0 :: rest') num_workers
      ∧ ∃ out singles,
          makeContainer collector_class probe policy (e0 :: rest) num_workers
              = some (out, singles)
            ∧ out.locked = true
            ∧ out.batchShape = num_workers :: (probe e0 policy).batchShape
            ∧ out.fields = (probe e0 policy).fields
            ∧ singles.length = num_workers
            ∧ (receiveRounds singles msgss).map TDModel.layout
                = singles.map TDModel.layout := by
  refine ⟨rfl, ((probe e0 policy).expandLead num_workers).lock_,
    ((probe e0 policy).expandLead num_workers).unbindLead, ?_, rfl, rfl, rfl, ?_,
    receiveRounds_layouts msgss _⟩
  · simp [makeContainer]
  · simp [TDModel.unbindLead, TDModel.expandLead]

/-- C1: for every valid configuration with exact divisibility, the iterator
yields exactly `total_frames / frames_per_batch` batches; every yielded batch
has numel `frames_per_batch` and leading shape
`[num_workers, frames_per_batch / num_workers]`; and the running total after
the last yielded batch (the sum of the yielded numels) equals
`total_frames`.  The probe tensordict's batch shape `[frames_per_batch /
num_workers]` is modelled from the spec: the external single collector
produces batches whose leading dimension is its `frames_per_batch`
argument. -/
theorem C1_iterator_accounting (num_workers total_frames frames_per_batch : Nat)
    (probeTD : TDModel)
    (hnw : 0 < num_workers) (hfpb : 0 < frames_per_batch)
    (h1 : num_workers ∣ total_frames) (h2 : num_workers ∣ frames_per_batch)
    (h3 : frames_per_batch ∣ total_frames)
    (hshape : probeTD.batchShape = [frames_per_batch / num_workers]) :
    (iteratorDistYields ((probeTD.expandLead num_workers).lock_) total_frames 0).length
        = total_frames / frames_per_batch
      ∧ (∀ td ∈ iteratorDistYields ((probeTD.expandLead num_workers).lock_) total_frames 0,
          td.numel = frames_per_batch
            ∧ td.batchShape = [num_workers, frames_per_batch / num_workers])
      ∧ ((iteratorDistYields ((probeTD.expandLead num_workers).lock_) total_frames 0).map
            TDModel.numel).sum = total_frames := by
  have hbs : ((probeTD.expandLead num_workers).lock_).batchShape
      = [num_workers, frames_per_batch / num_workers] := by
    simp [TDModel.lock_, TDModel.expandLead, hshape]
  have hnumel : ((probeTD.expandLead num_workers).lock_).numel = frames_per_batch := by
    rw [TDModel.numel, hbs]
    simp only [List.prod_cons, List.prod_nil, Nat.mul_one]
    exact Nat.mul_div_cancel' h2
  have hn0 : 0 < ((probeTD.expandLead num_workers).lock_).numel := by
    rw [hnumel]
    exact hfpb
  have hclosed : iteratorDistYields ((probeTD.expandLead num_workers).lock_) total_frames 0
      = List.replicate (total_frames / frames_per_batch)
          ((probeTD.expandLead num_workers).lock_) := by
    apply iteratorDistYields_closed _ _ _ hn0
    rw [hnumel, Nat.div_mul_cancel h3]
  rw [hclosed]
  refine ⟨List.length_replicate _ _, ?_, ?_⟩
  · intro td htd
    obtain ⟨-, rfl⟩ := List.mem_replicate.mp htd
    exact ⟨hnumel, hbs⟩
  · rw [List.map_replicate, hnumel, List.sum_replicate, smul_eq_mul,
      Nat.div_mul_cancel h3]

/-- C1 witness: two workers, `total_frames = 8`, `frames_per_batch = 4`,
probe batch shape `[2]`. -/
theorem C1_iterator_accounting_witness :
    (0 < 2 ∧ 0 < 4 ∧ (2 : Nat) ∣ 8 ∧ (2 : Nat) ∣ 4 ∧ (4 : Nat) ∣ 8
        ∧ (TDModel.mk [2] [] false).batchShape = [4 / 2])
      ∧ ((iteratorDistYields (((TDModel.mk [2] [] false).expandLead 2).lock_) 8 0).length
            = 8 / 4
        ∧ (∀ td ∈ iteratorDistYields (((TDModel.mk [2] [] false).expandLead 2).lock_) 8 0,
            td.numel = 4 ∧ td.batchShape = [2, 4 / 2])
        ∧ ((iteratorDistYields (((TDModel.mk [2] [] false).expandLead 2).lock_) 8 0).map
              TDModel.numel).sum = 8) :=
  ⟨⟨by decide, by decide, by decide, by decide, by decide, by decide⟩,
    C1_iterator_accounting 2 8 4 (TDModel.mk [2] [] false) (by decide) (by decide)
      (by decide) (by decide) (by decide) (by decide)⟩

/-- C3 counterexample: with an empty policy-parameter mapping (the policy is
not an `nn.Module`), `update_interval = 1`, one worker, one frame per batch
and two rounds, round 1 is a broadcast round (`1 % 1 == 0`) and the
coordinator does send the weights for it, but the worker never posts a
round-1 weight receive — its re-receive is guarded by
`not policy_weights.is_empty()` — so the claim's "every worker receives the
round-N broadcast before its round-N batch" fails as stated. -/
theorem C3_counterexample :
    (1 : Nat) % 1 = 0
      ∧ CoordEvent.sendWeights 1 1 ∈ coordEvents 1 1 1 2
      ∧ WorkerEvent.recvWeights 1 ∉ workerEvents 1 1 2 false := by
  have hc : coordEvents 1 1 1 2 = (List.range 2).flatMap (coordRound 1 1) :=
    coordEvents_closed 1 1 1 2 2 (by decide) (by decide)
  have hw : workerEvents 1 1 2 false
      = WorkerEvent.recvWeights 0 ::
          (List.range 2).flatMap (workerRoundBlock 1 2 false) :=
    workerEvents_closed 1 1 2 2 false (by decide) (by decide)
  refine ⟨rfl, ?_, ?_⟩
  · rw [hc]
    decide
  · rw [hw]
    decide

/-- C3 (amended): over a run of `R` rounds with positive `update_interval`
and per-worker batch size, for every broadcast round `n` (that is,
`n % update_interval == 0`) the coordinator sends the policy parameters to
each worker rank exactly once and does so before posting that round's batch
receive for that rank; and, provided the policy-parameter mapping is
non-empty, every worker posts the round-`n` weight receive strictly before
producing its round-`n` batch.  For every non-broadcast round no parameter
send occurs on the coordinator side and no parameter receive occurs on the
worker side, whatever the parameter mapping. -/
theorem C3_weight_broadcast_schedule
    (num_workers update_interval fpbc R rank n : Nat)
    (hnw : 0 < num_workers) (hu : 0 < update_interval) (hfpbc : 0 < fpbc)
    (hrank1 : 1 ≤ rank) (hrank2 : rank ≤ num_workers) (hn : n < R) :
    (n % update_interval = 0 →
        (coordEvents num_workers update_interval (num_workers * fpbc)
            (R * (num_workers * fpbc))).count (CoordEvent.sendWeights n rank) = 1
          ∧ occursBefore (CoordEvent.sendWeights n rank) (CoordEvent.postRecv n rank)
              (coordEvents num_workers update_interval (num_workers * fpbc)
                (R * (num_workers * fpbc))) = true
          ∧ occursBefore (WorkerEvent.recvWeights n) (WorkerEvent.produceBatch n)
              (workerEvents update_interval fpbc (R * fpbc) true) = true)
      ∧ (n % update_interval ≠ 0 →
          CoordEvent.sendWeights n rank
              ∉ coordEvents num_workers update_interval (num_workers * fpbc)
                  (R * (num_workers * fpbc))
            ∧ ∀ ne, WorkerEvent.recvWeights n
                ∉ workerEvents update_interval fpbc (R * fpbc) ne) := by
  have hb : 0 < num_workers * fpbc := Nat.mul_pos hnw hfpbc
  have hc := coordEvents_closed num_workers update_interval (num_workers * fpbc) R
    (R * (num_workers * fpbc)) hb rfl
  obtain ⟨r0, rfl⟩ : ∃ r0, rank = r0 + 1 := ⟨rank - 1, by omega⟩
  have hr0 : r0 < num_workers := by omega
  constructor
  · intro hmod
    refine ⟨?_, ?_, ?_⟩
    · -- the weights are sent exactly once to this rank
      rw [hc]
      rw [count_flatMap_single _ _ n R hn
        (fun j hj hmem => hj (sendWeights_mem_coordRound hmem).1)]
      simp only [coordRound, if_pos hmod, List.count_append]
      have cmap : ((List.range num_workers).map
            (fun i => CoordEvent.sendWeights n (i + 1))).count
            (CoordEvent.sendWeights n (r0 + 1)) = 1 := by
        have hinj : Function.Injective (fun i => CoordEvent.sendWeights n (i + 1)) := by
          intro a b hab
          simp only [CoordEvent.sendWeights.injEq, Nat.add_right_cancel_iff] at hab
          exact hab.2
        calc ((List.range num_workers).map
              (fun i => CoordEvent.sendWeights n (i + 1))).count
              (CoordEvent.sendWeights n (r0 + 1))
            = (List.range num_workers).count r0 :=
              List.count_map_of_injective _ _ hinj r0
          _ = 1 := count_range_of_lt r0 num_workers hr0
      have cP : ((List.range num_workers).map
            (fun i => CoordEvent.postRecv n (i + 1))).count
            (CoordEvent.sendWeights n (r0 + 1)) = 0 := by
        apply List.count_eq_zero_of_not_mem
        intro hmem
        obtain ⟨i, -, heq⟩ := List.mem_map.mp hmem
        simp at heq
      have cY : ([CoordEvent.yieldBatch n] : List CoordEvent).count
          (CoordEvent.sendWeights n (r0 + 1)) = 0 := by
        apply List.count_eq_zero_of_not_mem
        simp
      rw [cmap, cP, cY]
    · -- the send precedes the posting of that round's batch receive
      rw [hc]
      obtain ⟨B, hB⟩ := flatMap_range_split (coordRound num_workers update_interval) hn
      rw [hB]
      apply occursBefore_append_right
      have hgoal : occursBefore (CoordEvent.sendWeights n (r0 + 1))
          (CoordEvent.postRecv n (r0 + 1))
          (coordRound num_workers update_interval n) = true := by
        simp only [coordRound, if_pos hmod]
        apply occursBefore_of_mem_mem
        · exact List.mem_append_left _
            (List.mem_map.mpr ⟨r0, List.mem_range.mpr hr0, rfl⟩)
        · exact List.mem_map.mpr ⟨r0, List.mem_range.mpr hr0, rfl⟩
      exact occursBefore_append_left _ _ _ _ hgoal
    · -- the worker posts the round-n weight receive before producing batch n
      rw [workerEvents_closed update_interval fpbc R (R * fpbc) true hfpbc rfl]
      rcases Nat.eq_zero_or_pos n with rfl | hnpos
      · apply occursBefore_cons_self
        exact mem_flatMap_range_of_mem _ _ 0 R hn
          (produceBatch_mem_block update_interval R 0 true)
      · apply occursBefore_cons_tail
        obtain ⟨m, rfl⟩ : ∃ m, n = m + 1 := ⟨n - 1, by omega⟩
        obtain ⟨B₂, hB₂⟩ :=
          flatMap_range_split (workerRoundBlock update_interval R true) hn
        rw [hB₂]
        have hsplit : (List.range (m + 1)).flatMap (workerRoundBlock update_interval R true)
            = (List.range m).flatMap (workerRoundBlock update_interval R true)
                ++ workerRoundBlock update_interval R true m := by
          rw [List.range_succ, List.flatMap_append]
          simp
        rw [hsplit, List.append_assoc]
        apply occursBefore_append_right
        apply occursBefore_of_mem_mem
        · exact List.mem_append_left _ (produceBatch_mem_block update_interval R (m + 1) true)
        · exact recvWeights_mem_block_of update_interval R m true hn hmod rfl
  · intro hmod
    constructor
    · rw [hc]
      intro hmem
      obtain ⟨j, -, hmemj⟩ := List.mem_flatMap.mp hmem
      exact hmod (sendWeights_mem_coordRound hmemj).2.1
    · intro ne
      rw [workerEvents_closed update_interval fpbc R (R * fpbc) ne hfpbc rfl]
      intro hmem
      rcases List.mem_cons.mp hmem with heq | hmem'
      · injection heq with hzero
        exact hmod (by rw [hzero]; exact Nat.zero_mod _)
      · obtain ⟨k, -, hmemk⟩ := List.mem_flatMap.mp hmem'
        exact hmod (recvWeights_mem_block hmemk).2.2.1

/-- C3 witness: two workers, `update_interval = 2`, per-worker batch size 1,
four rounds, rank 2, round 2. -/
theorem C3_weight_broadcast_schedule_witness :
    (0 < 2 ∧ 0 < 2 ∧ 0 < 1 ∧ 1 ≤ 2 ∧ 2 ≤ 2 ∧ 2 < 4)
      ∧ (((2 : Nat) % 2 = 0 →
            (coordEvents 2 2 (2 * 1) (4 * (2 * 1))).count (CoordEvent.sendWeights 2 2) = 1
              ∧ occursBefore (CoordEvent.sendWeights 2 2) (CoordEvent.postRecv 2 2)
                  (coordEvents 2 2 (2 * 1) (4 * (2 * 1))) = true
              ∧ occursBefore (WorkerEvent.recvWeights 2) (WorkerEvent.produceBatch 2)
                  (workerEvents 2 1 (4 * 1) true) = true)
        ∧ ((2 : Nat) % 2 ≠ 0 →
            CoordEvent.sendWeights 2 2 ∉ coordEvents 2 2 (2 * 1) (4 * (2 * 1))
              ∧ ∀ ne, WorkerEvent.recvWeights 2 ∉ workerEvents 2 1 (4 * 1) ne)) :=
  ⟨⟨by decide, by decide, by decide, by decide, by decide, by decide⟩,
    C3_weight_broadcast_schedule 2 2 1 4 2 2 (by decide) (by decide) (by decide)
      (by decide) (by decide) (by decide)⟩

end DistributedSync
